import Mathlib

/-!
Verification development for the gpt-crawler core (src/core.ts): the
result-aggregation/batching engine (`writeSingle`, `addContentOrSplit`,
`writeBatchToFile`, `write`) and the seed classification in `crawlSingle`.

Records are embedded as JSON objects with string fields, which is the shape
of every PageRecord `{title, url, html, sourceUrl}` the engine consumes.
JavaScript strings are embedded as Lean strings; `JSON.stringify` (compact
and 2-space pretty forms) and `Buffer.byteLength(s, "utf-8")` are embedded
below following the ECMA-404 / Node semantics on this value shape.
-/

namespace Crawler

/-- A PageRecord / parsed dataset value: a JSON object with string fields,
in insertion order (the shape `JSON.stringify` sees for every record the
engine handles). -/
abbrev PageRecord := List (String × String)

/-- UTF-8 byte count of a character list. -/
def charBytes : List Char → Nat
  | [] => 0
  | c :: cs => c.utf8Size + charBytes cs

/-- Embedding of `Buffer.byteLength(str, "utf-8")`. -/
def utf8Len (s : String) : Nat := charBytes s.data

/-- `getStringByteSize` from core.ts: byte size of a string in UTF-8. -/
def getStringByteSize (s : String) : Nat := utf8Len s

/-- JSON string escaping of one character, as in `JSON.stringify`:
quote, backslash and control characters are escaped, everything else is
emitted verbatim. -/
def escapeChar (c : Char) : List Char :=
  if c = '"' then ['\\', '"']
  else if c = '\\' then ['\\', '\\']
  else if c = '\n' then ['\\', 'n']
  else if c = '\t' then ['\\', 't']
  else if c = '\r' then ['\\', 'r']
  else if c.toNat < 32 then
    ['\\', 'u', '0', '0',
      (Nat.digitChar (c.toNat / 16)), (Nat.digitChar (c.toNat % 16))]
  else [c]

def escList : List Char → List Char
  | [] => []
  | c :: cs => escapeChar c ++ escList cs

def escapeString (s : String) : String := String.mk (escList s.data)

/-- A JSON string literal: `"` ++ escaped body ++ `"`. -/
def quoteStr (s : String) : String := "\"" ++ escapeString s ++ "\""

/-- Join a list of strings with a separator (no leading/trailing copy). -/
def joinSep (sep : String) : List String → String
  | [] => ""
  | [x] => x
  | x :: y :: ys => x ++ sep ++ joinSep sep (y :: ys)

/-- One `"key":"value"` member of a compact JSON object. -/
def compactField (kv : String × String) : String :=
  quoteStr kv.1 ++ ":" ++ quoteStr kv.2

/-- Embedding of `JSON.stringify(data)` (compact, no indentation) on a
record. -/
def stringifyCompact (r : PageRecord) : String :=
  "\x7b" ++ joinSep "," (r.map compactField) ++ "\x7d"

/-- One `    "key": "value"` member of a pretty object nested inside the
top-level array (indentation level 2, two spaces per level). -/
def prettyField (kv : String × String) : String :=
  "    " ++ quoteStr kv.1 ++ ": " ++ quoteStr kv.2

/-- Pretty form of one record as an element of the top-level array,
matching `JSON.stringify(batch, null, 2)`. -/
def prettyRecord (r : PageRecord) : String :=
  match r with
  | [] => "\x7b\x7d"
  | _ => "\x7b\n" ++ joinSep ",\n" (r.map prettyField) ++ "\n  \x7d"

/-- Embedding of `JSON.stringify(currentResults, null, 2)`: the
pretty-printed JSON array written to each output file. -/
def prettyBatch (rs : List PageRecord) : String :=
  match rs with
  | [] => "[]"
  | _ => "[\n" ++ joinSep ",\n" (rs.map (fun r => "  " ++ prettyRecord r)) ++ "\n]"

/-- Compact serialized byte size of one record: the amount the engine adds
to `currentSize` for it. -/
def recordBytes (r : PageRecord) : Nat := getStringByteSize (stringifyCompact r)

/-- Total compact serialized byte size of a list of records. -/
def batchBytes (rs : List PageRecord) : Nat := (rs.map recordBytes).sum

/-- The slice of the crawler configuration the write/aggregation phase
reads (`outputFileName`, `maxFileSize` in MB, `maxTokens`); `none` models
an absent optional field. -/
structure BatchConfig where
  outputFileName : String
  maxFileSize : Option Nat
  maxTokens : Option Nat
deriving Repr, DecidableEq

/-- Suffix test on the underlying character lists. -/
def strEndsWith (s t : String) : Bool := t.data.isSuffixOf s.data

/-- Drop the last `n` characters. -/
def strDropRight (s : String) (n : Nat) : String :=
  String.mk (s.data.take (s.data.length - n))

/-- `s.replace(/\.json$/, "")`: strip one trailing ".json". -/
def stripJsonSuffix (s : String) : String :=
  if strEndsWith s ".json" then strDropRight s 5 else s

/-- `urlConfig.maxFileSize ? urlConfig.maxFileSize * 1024 * 1024 : Infinity`;
`none` is Infinity (also for the JS-falsy value 0). -/
def maxBytes (cfg : BatchConfig) : Option Nat :=
  match cfg.maxFileSize with
  | none => none
  | some 0 => none
  | some m => some (m * 1024 * 1024)

/-- `urlConfig.maxTokens || Infinity`, the limit handed to the token
estimator; `none` is Infinity (also for the JS-falsy value 0). -/
def tokenEstimatorLimit (cfg : BatchConfig) : Option Nat :=
  match cfg.maxTokens with
  | none => none
  | some 0 => none
  | some t => some t

/-- `estimatedTokens + tokenCount > urlConfig.maxTokens!`: with
`maxTokens` absent the JS comparison against `undefined` is false. -/
def tokenOverflow (cfg : BatchConfig) (e t : Nat) : Bool :=
  match cfg.maxTokens with
  | none => false
  | some T => decide (e + t > T)

/-- `currentSize > maxBytes`: false when the ceiling is Infinity. -/
def byteOverflow (cfg : BatchConfig) (size : Nat) : Bool :=
  match maxBytes cfg with
  | none => false
  | some B => decide (size > B)

/-- Model of the external `isWithinTokenLimit` collaborator
(gpt-tokenizer): returns the token count of the text when it is within
the limit, and `none` (JS `false`) when the text alone exceeds it. The
abstract counter `tok` stands for the tokenizer's token count function. -/
def isWithinTokenLimit (tok : String → Nat) (text : String) (limit : Option Nat) : Option Nat :=
  match limit with
  | none => some (tok text)
  | some T => if tok text ≤ T then some (tok text) else none

/-- One output artifact: the name it is written under, the exact file
content, and the batch of records it serializes. -/
structure Artifact where
  name : String
  content : String
  records : List PageRecord
deriving Repr, DecidableEq

instance : Inhabited Artifact := ⟨⟨"", "", []⟩⟩

/-- The per-group mutable state of the batching loop in `writeSingle`:
`currentResults`, `currentSize`, `fileCounter`, `estimatedTokens`, plus
the artifacts written so far (in write order). -/
structure BatchState where
  currentResults : List PageRecord
  currentSize : Nat
  fileCounter : Nat
  estimatedTokens : Nat
  artifacts : List Artifact
deriving Repr, DecidableEq

/-- The accumulators as initialized at the head of the per-group loop:
empty batch, zero byte total, `fileCounter = 1`, zero token estimate. -/
def initialBatchState : BatchState :=
  { currentResults := [], currentSize := 0, fileCounter := 1,
    estimatedTokens := 0, artifacts := [] }

/-- `nextFileName()`: output base name (with ".json" stripped) ++ "-" ++
counter ++ ".json". -/
def nextFileName (cfg : BatchConfig) (counter : Nat) : String :=
  stripJsonSuffix cfg.outputFileName ++ "-" ++ toString counter ++ ".json"

/-- The artifact produced by one `writeBatchToFile` call on state `st`. -/
def flushArtifact (cfg : BatchConfig) (st : BatchState) : Artifact :=
  { name := nextFileName cfg st.fileCounter,
    content := prettyBatch st.currentResults,
    records := st.currentResults }

/-- `writeBatchToFile` from core.ts: write the pending batch pretty-printed
under the next sequence name, clear `currentResults` and `currentSize`,
advance `fileCounter`. (`estimatedTokens` is not touched.) -/
def writeBatchToFile (cfg : BatchConfig) (st : BatchState) : BatchState :=
  { currentResults := [],
    currentSize := 0,
    fileCounter := st.fileCounter + 1,
    estimatedTokens := st.estimatedTokens,
    artifacts := st.artifacts ++ [flushArtifact cfg st] }

/-- The token-accounting branch of `addContentOrSplit` (the
`if (typeof tokenCount === "number")` block): on a numeric count, either
flush-then-carry (`estimatedTokens = floor(tokenCount / 2)`) on overflow,
or append and accumulate; on `false` from the estimator the state is left
unchanged (the record is not appended). -/
def tokenPhase (cfg : BatchConfig) (tok : String → Nat) (st : BatchState)
    (data : PageRecord) : BatchState :=
  match isWithinTokenLimit tok (stringifyCompact data) (tokenEstimatorLimit cfg) with
  | some t =>
    if tokenOverflow cfg st.estimatedTokens t then
      let st' := if st.currentResults.length > 0 then writeBatchToFile cfg st else st
      { st' with estimatedTokens := t / 2,
                 currentResults := st'.currentResults ++ [data] }
    else
      { st with currentResults := st.currentResults ++ [data],
                estimatedTokens := st.estimatedTokens + t }
  | none => st

/-- The byte-accounting tail of `addContentOrSplit`: add the record's
serialized byte size to `currentSize` and flush if the byte ceiling is
now exceeded. -/
def bytePhase (cfg : BatchConfig) (b : Nat) (st : BatchState) : BatchState :=
  let st2 := { st with currentSize := st.currentSize + b }
  if byteOverflow cfg st2.currentSize then writeBatchToFile cfg st2 else st2

/-- `addContentOrSplit` from core.ts: token branch, then byte accounting
on the compact serialization of the record. -/
def addContentOrSplit (cfg : BatchConfig) (tok : String → Nat) (st : BatchState)
    (data : PageRecord) : BatchState :=
  bytePhase cfg (getStringByteSize (stringifyCompact data)) (tokenPhase cfg tok st data)

/-- The per-group loop of `writeSingle` on already-parsed records: feed
each record through `addContentOrSplit`, then flush a non-empty remainder. -/
def processGroup (cfg : BatchConfig) (tok : String → Nat) (records : List PageRecord) :
    BatchState :=
  let final := records.foldl (addContentOrSplit cfg tok) initialBatchState
  if final.currentResults.length > 0 then writeBatchToFile cfg final else final

/-- The records of all flushed artifacts of a state, concatenated in
flush order. -/
def flushedRecords (st : BatchState) : List PageRecord :=
  (st.artifacts.map Artifact.records).flatten

/-! ### The aggregation phase of `writeSingle`: grouping and processing -/

/-- One file found by the `glob` over the durable record store:
its path, whether `readFile` + `JSON.parse` succeeds on it, and the
parsed record when it does. -/
structure RecordFile where
  path : String
  parses : Bool
  data : PageRecord
deriving Repr, DecidableEq

/-- JS field access `data.key` on a parsed record (first matching key;
`none` for a missing field / `undefined`). -/
def getField (r : PageRecord) (key : String) : Option String :=
  (r.find? (fun kv => kv.1 = key)).map (fun kv => kv.2)

/-- `data.sourceUrl || data.url`: the left operand unless it is absent or
JS-falsy (the empty string). -/
def sourceUrlOf (r : PageRecord) : Option String :=
  match getField r "sourceUrl" with
  | some v => if v = "" then getField r "url" else some v
  | none => getField r "url"

/-- The truthiness test `if (sourceUrl)` on the chosen source identifier. -/
def hasSourceUrl (r : PageRecord) : Bool :=
  match sourceUrlOf r with
  | some v => decide (v ≠ "")
  | none => false

/-- The key the first loop of `writeSingle` files everything under:
`config.outputFileName.replace(/\.json$/, "")`. -/
def configKey (cfg : BatchConfig) : String := stripJsonSuffix cfg.outputFileName

/-- `pathname.replace(/\//g, "_")`: every slash becomes an underscore. -/
def underscoreSlashes (l : List Char) : List Char :=
  l.map (fun c => if c = '/' then '_' else c)

/-- The `cleanUrl` computed (but never used as the map key) in
`writeSingle`: hostname ++ pathname with slashes replaced by underscores
(`replace(/\//g, "_")`) and one leading underscore stripped
(`replace(/^_/, "")`). -/
def cleanUrlKey (hostname pathname : String) : String :=
  hostname ++
    (match underscoreSlashes pathname.data with
     | '_' :: rest => String.mk rest
     | l => String.mk l)

/-- The grouping key `writeSingle` assigns to one globbed file: the
parseable-source branch, the missing-source branch and the catch branch
all use the config's output base name (the code's comment: "Use config's
outputFileName instead of cleanUrl for the map key"). -/
def fileGroupKey (cfg : BatchConfig) (f : RecordFile) : String :=
  if f.parses then
    if hasSourceUrl f.data then configKey cfg
    else configKey cfg
  else configKey cfg

/-- Append a file under its key in an insertion-ordered association list,
mirroring the JS `Map<string, string[]>` used by `writeSingle`. -/
def insertAppend (k : String) (f : RecordFile) :
    List (String × List RecordFile) → List (String × List RecordFile)
  | [] => [(k, [f])]
  | (k', fs) :: rest =>
    if k' = k then (k', fs ++ [f]) :: rest else (k', fs) :: insertAppend k f rest

/-- The first loop of `writeSingle`: categorize the globbed files by
their grouping key (key order = first insertion, value order = push
order, as for a JS `Map`). -/
def groupFiles (cfg : BatchConfig) (files : List RecordFile) :
    List (String × List RecordFile) :=
  files.foldl (fun acc f => insertAppend (fileGroupKey cfg f) f acc) []

/-- The per-group processing loop of `writeSingle`: each file is re-read
and re-parsed with no error handling, so an unreadable/unparseable file
throws (modelled as `Except.error` carrying the file's path); otherwise
its record is fed to `addContentOrSplit`. -/
def processFilesE (cfg : BatchConfig) (tok : String → Nat) :
    BatchState → List RecordFile → Except String BatchState
  | st, [] => Except.ok st
  | st, f :: fs =>
    if f.parses then processFilesE cfg tok (addContentOrSplit cfg tok st f.data) fs
    else Except.error f.path

/-- One group's full processing in `writeSingle`: run the loop from fresh
accumulators, then flush a non-empty remainder. -/
def processGroupE (cfg : BatchConfig) (tok : String → Nat) (fs : List RecordFile) :
    Except String BatchState :=
  match processFilesE cfg tok initialBatchState fs with
  | Except.error e => Except.error e
  | Except.ok final =>
    Except.ok (if final.currentResults.length > 0 then writeBatchToFile cfg final else final)

/-- The second loop of `writeSingle`: process each group in map order
under `urlConfig = { ...config, outputFileName: urlKey + ".json" }`,
collecting every artifact written; an error aborts the remainder. -/
def writeGroups (cfg : BatchConfig) (tok : String → Nat) :
    List (String × List RecordFile) → Except String (List Artifact)
  | [] => Except.ok []
  | (key, fs) :: rest =>
    match processGroupE { cfg with outputFileName := key ++ ".json" } tok fs with
    | Except.error e => Except.error e
    | Except.ok st =>
      match writeGroups cfg tok rest with
      | Except.error e => Except.error e
      | Except.ok more => Except.ok (st.artifacts ++ more)

/-- `writeSingle` from core.ts: group the globbed files, process every
group, and return `config.outputFileName` (paired here with the artifacts
actually written, which the real function leaves on disk). -/
def writeSingle (cfg : BatchConfig) (tok : String → Nat) (files : List RecordFile) :
    Except String (List Artifact × String) :=
  match writeGroups cfg tok (groupFiles cfg files) with
  | Except.error e => Except.error e
  | Except.ok arts => Except.ok (arts, cfg.outputFileName)

/-- `write` on a configuration array: run `writeSingle` per configuration
in order and collect the returned paths (`PathLike[]`). -/
def write (cfgs : List BatchConfig) (tok : String → Nat) (files : List RecordFile) :
    Except String (List String) :=
  match cfgs with
  | [] => Except.ok []
  | c :: rest =>
    match writeSingle c tok files with
    | Except.error e => Except.error e
    | Except.ok r =>
      match write rest tok files with
      | Except.error e => Except.error e
      | Except.ok more => Except.ok (r.2 :: more)

/-! ### Seed classification in `crawlSingle` -/

/-- The well-known sitemap filename suffix tested by `crawlSingle`. -/
def SITEMAP_SUFFIX : String := "sitemap.xml"

/-- `const isUrlASitemap = url.endsWith(SITEMAP_SUFFIX)`. -/
def isUrlASitemap (url : String) : Bool := strEndsWith url SITEMAP_SUFFIX

/-- The frontier's initial request set for one seed: a sitemap seed is
expanded through the external `downloadListOfUrls` collaborator
(`crawler.addRequests(listOfUrls)`), any other seed starts the crawler
with exactly `[url]`. -/
def initialRequests (downloadListOfUrls : String → List String) (url : String) :
    List String :=
  if isUrlASitemap url then downloadListOfUrls url else [url]

/-! ### Basic lemmas about the batching step -/

theorem charBytes_append (a b : List Char) :
    charBytes (a ++ b) = charBytes a + charBytes b := by
  induction a with
  | nil => simp [charBytes]
  | cons c cs ih => simp [charBytes, ih]; omega

theorem utf8Len_append (s t : String) : utf8Len (s ++ t) = utf8Len s + utf8Len t := by
  cases s with
  | mk a =>
    cases t with
    | mk b => exact charBytes_append a b

theorem batchBytes_append (l : List PageRecord) (x : PageRecord) :
    batchBytes (l ++ [x]) = batchBytes l + recordBytes x := by
  simp [batchBytes]

theorem batchBytes_dropLast_le : ∀ (l : List PageRecord),
    batchBytes l.dropLast ≤ batchBytes l
  | [] => by simp [batchBytes]
  | [_] => by simp [batchBytes, List.dropLast]
  | x :: y :: ys => by
    have ih := batchBytes_dropLast_le (y :: ys)
    simp only [List.dropLast, batchBytes, List.map, List.sum_cons] at ih ⊢
    omega

theorem ne_append_singleton {α : Type} (l : List α) (x : α) : l ++ [x] ≠ l := by
  intro h
  have := congrArg List.length h
  simp at this

theorem byteOverflow_eq_false_iff (cfg : BatchConfig) (B n : Nat)
    (hB : maxBytes cfg = some B) : byteOverflow cfg n = false ↔ n ≤ B := by
  unfold byteOverflow
  rw [hB]
  simp

theorem tokenPhase_none (cfg : BatchConfig) (tok : String → Nat) (st : BatchState)
    (data : PageRecord)
    (h : isWithinTokenLimit tok (stringifyCompact data) (tokenEstimatorLimit cfg) = none) :
    tokenPhase cfg tok st data = st := by
  unfold tokenPhase
  rw [h]

theorem tokenPhase_noOv (cfg : BatchConfig) (tok : String → Nat) (st : BatchState)
    (data : PageRecord) (t : Nat)
    (h : isWithinTokenLimit tok (stringifyCompact data) (tokenEstimatorLimit cfg) = some t)
    (hov : tokenOverflow cfg st.estimatedTokens t = false) :
    tokenPhase cfg tok st data =
      { st with currentResults := st.currentResults ++ [data],
                estimatedTokens := st.estimatedTokens + t } := by
  unfold tokenPhase
  rw [h]
  simp [hov]

theorem tokenPhase_ov_pos (cfg : BatchConfig) (tok : String → Nat) (st : BatchState)
    (data : PageRecord) (t : Nat)
    (h : isWithinTokenLimit tok (stringifyCompact data) (tokenEstimatorLimit cfg) = some t)
    (hov : tokenOverflow cfg st.estimatedTokens t = true)
    (hne : st.currentResults.length > 0) :
    tokenPhase cfg tok st data =
      { currentResults := [data], currentSize := 0, fileCounter := st.fileCounter + 1,
        estimatedTokens := t / 2, artifacts := st.artifacts ++ [flushArtifact cfg st] } := by
  unfold tokenPhase
  rw [h]
  simp [hov, hne, writeBatchToFile]

theorem tokenPhase_ov_zero (cfg : BatchConfig) (tok : String → Nat) (st : BatchState)
    (data : PageRecord) (t : Nat)
    (h : isWithinTokenLimit tok (stringifyCompact data) (tokenEstimatorLimit cfg) = some t)
    (hov : tokenOverflow cfg st.estimatedTokens t = true)
    (hz : st.currentResults.length = 0) :
    tokenPhase cfg tok st data =
      { st with currentResults := st.currentResults ++ [data],
                estimatedTokens := t / 2 } := by
  unfold tokenPhase
  rw [h]
  simp [hov, hz]

theorem bytePhase_noOv (cfg : BatchConfig) (b : Nat) (st : BatchState)
    (h : byteOverflow cfg (st.currentSize + b) = false) :
    bytePhase cfg b st = { st with currentSize := st.currentSize + b } := by
  unfold bytePhase
  simp [h]

theorem bytePhase_ov (cfg : BatchConfig) (b : Nat) (st : BatchState)
    (h : byteOverflow cfg (st.currentSize + b) = true) :
    bytePhase cfg b st = writeBatchToFile cfg { st with currentSize := st.currentSize + b } := by
  unfold bytePhase
  simp [h]

theorem flushedRecords_writeBatch (cfg : BatchConfig) (st : BatchState) :
    flushedRecords (writeBatchToFile cfg st) = flushedRecords st ++ st.currentResults := by
  simp [flushedRecords, writeBatchToFile, flushArtifact]

/-! ### Concrete fixtures used by witnesses and counterexamples -/

/-- A token counter that reports zero tokens for every text. -/
def tok0 : String → Nat := fun _ => 0

/-- A token counter that counts one token per UTF-8 byte. -/
def tokLen : String → Nat := fun s => utf8Len s

/-- A token counter that reports three tokens for every text. -/
def tok3 : String → Nat := fun _ => 3

def cfgPlain : BatchConfig := { outputFileName := "output.json", maxFileSize := none, maxTokens := none }

def cfgTok1 : BatchConfig := { outputFileName := "c1.json", maxFileSize := none, maxTokens := some 1 }

def cfgTok2 : BatchConfig := { outputFileName := "c2.json", maxFileSize := none, maxTokens := some 2 }

def cfgTok5 : BatchConfig := { outputFileName := "c4.json", maxFileSize := none, maxTokens := some 5 }

def cfgTok100 : BatchConfig := { outputFileName := "w4.json", maxFileSize := none, maxTokens := some 100 }

/-! ### Claim C9: sitemap classification -/

/-- Claim C9: a seed is classified as a sitemap exactly when it ends with
the suffix "sitemap.xml"; a sitemap seed's frontier starts from the list
fetched by the external `downloadListOfUrls` collaborator, any other seed
starts the frontier with exactly that one URL. -/
theorem C9_sitemap_classification (downloadListOfUrls : String → List String) (url : String) :
    (isUrlASitemap url = strEndsWith url "sitemap.xml") ∧
    (strEndsWith url "sitemap.xml" = true →
      initialRequests downloadListOfUrls url = downloadListOfUrls url) ∧
    (strEndsWith url "sitemap.xml" = false →
      initialRequests downloadListOfUrls url = [url]) := by
  refine ⟨rfl, fun h => ?_, fun h => ?_⟩
  · unfold initialRequests isUrlASitemap SITEMAP_SUFFIX
    rw [h]
    rfl
  · unfold initialRequests isUrlASitemap SITEMAP_SUFFIX
    rw [h]
    rfl

/-- A concrete sitemap fetch collaborator for the C9 witness. -/
def dl0 : String → List String := fun _ => ["https://site.test/a", "https://site.test/b"]

/-- Claim C9 witness: the sitemap seed of the spec example expands to the
fetched list, a plain seed crawls exactly itself. -/
theorem C9_sitemap_classification_witness :
    initialRequests dl0 "https://site.test/sitemap.xml" =
      ["https://site.test/a", "https://site.test/b"] ∧
    initialRequests dl0 "https://site.test/page" = ["https://site.test/page"] := by
  constructor
  · exact (C9_sitemap_classification dl0 "https://site.test/sitemap.xml").2.1 (by decide)
  · exact (C9_sitemap_classification dl0 "https://site.test/page").2.2 (by decide)

/-! ### Claim C5: flush postcondition -/

/-- Claim C5 counterexample: a flush does NOT reset all three
accumulators — `writeBatchToFile` leaves `estimatedTokens` untouched
(here it stays 7 instead of the claimed reset to 0); only the pending
batch and the byte total are cleared. -/
theorem C5_flush_counterexample :
    (writeBatchToFile cfgPlain
        { currentResults := [[("title", "x")]], currentSize := 13, fileCounter := 1,
          estimatedTokens := 7, artifacts := [] }).estimatedTokens = 7 ∧
    (7 : Nat) ≠ 0 ∧
    (writeBatchToFile cfgPlain
        { currentResults := [[("title", "x")]], currentSize := 13, fileCounter := 1,
          estimatedTokens := 7, artifacts := [] }).currentResults = [] ∧
    (writeBatchToFile cfgPlain
        { currentResults := [[("title", "x")]], currentSize := 13, fileCounter := 1,
          estimatedTokens := 7, artifacts := [] }).currentSize = 0 := by
  decide

/-- Claim C5 (amended): every flush writes the pending batch as a
pretty-printed JSON array under the group key combined with the (1-based)
sequence index, resets the pending batch and the running byte total and
advances the counter — but it does not reset the running token estimate;
the end of a group always leaves an empty pending batch. -/
theorem C5_flush_postcondition (cfg : BatchConfig) (st : BatchState)
    (tok : String → Nat) (records : List PageRecord) :
    writeBatchToFile cfg st =
      { currentResults := [], currentSize := 0, fileCounter := st.fileCounter + 1,
        estimatedTokens := st.estimatedTokens,
        artifacts := st.artifacts ++
          [{ name := stripJsonSuffix cfg.outputFileName ++ "-" ++ toString st.fileCounter ++ ".json",
             content := prettyBatch st.currentResults,
             records := st.currentResults }] } ∧
    initialBatchState.fileCounter = 1 ∧
    (processGroup cfg tok records).currentResults = [] := by
  refine ⟨rfl, rfl, ?_⟩
  have h : ∀ (fin : BatchState),
      (if fin.currentResults.length > 0 then writeBatchToFile cfg fin else fin).currentResults
        = [] := by
    intro fin
    split
    · rfl
    · rename_i hlen
      exact List.length_eq_zero.mp (Nat.le_zero.mp (Nat.not_lt.mp hlen))
  exact h (records.foldl (addContentOrSplit cfg tok) initialBatchState)

/-! ### Claim C6: grouping key derivation -/

/-- The record file of the spec's own example: a parsed record whose
sourceUrl is "https://example.com/a/b". -/
def exampleFile : RecordFile :=
  { path := "storage/datasets/default/000000001.json", parses := true,
    data := [("title", "t"), ("url", "https://example.com/a/b"),
             ("html", "h"), ("sourceUrl", "https://example.com/a/b")] }

/-- Claim C6 counterexample: for a record with parseable sourceUrl
"https://example.com/a/b" the claim predicts key "example.com_a_b", but
`writeSingle` keys the record by the config's output base name ("output"
for outputFileName "output.json"); even the unused `cleanUrl`
computation would have produced "example.coma_b" (the leading separator
is stripped, not kept), not "example.com_a_b". -/
theorem C6_groupKey_counterexample :
    exampleFile.parses = true ∧
    sourceUrlOf exampleFile.data = some "https://example.com/a/b" ∧
    cleanUrlKey "example.com" "/a/b" = "example.coma_b" ∧
    fileGroupKey cfgPlain exampleFile = "output" ∧
    ("output" : String) ≠ "example.com_a_b" ∧
    ("output" : String) ≠ "example.coma_b" := by
  decide

/-- Claim C6 (amended): the grouping key is the configuration's output
base name (outputFileName with the ".json" suffix stripped) for every
record file alike — parseable source, absent source and unparseable file;
the hostname/path-derived clean key is computed but never used. -/
theorem C6_groupKey_amended (cfg : BatchConfig) (f : RecordFile) :
    fileGroupKey cfg f = stripJsonSuffix cfg.outputFileName := by
  unfold fileGroupKey configKey
  split
  · split <;> rfl
  · rfl

/-! ### Claim C2: token-exceeds-alone records -/

/-- Claim C2 counterexample: a record the estimator reports as exceeding
the ceiling alone (`false` from `isWithinTokenLimit`) is NOT appended to
the pending batch — `addContentOrSplit` drops it entirely (the batch
stays empty and no artifact receives it), contrary to the claimed
append. -/
theorem C2_excluded_counterexample :
    isWithinTokenLimit tokLen (stringifyCompact [("b", "cc")]) (tokenEstimatorLimit cfgTok2) = none ∧
    (addContentOrSplit cfgTok2 tokLen initialBatchState [("b", "cc")]).currentResults = [] ∧
    (addContentOrSplit cfgTok2 tokLen initialBatchState [("b", "cc")]).artifacts = [] ∧
    ([] : List PageRecord) ≠ [[("b", "cc")]] := by
  decide

/-- Claim C2 (amended): for a record the estimator reports as exceeding
the ceiling alone, the batching step drops the record — the pending
batch, the running token estimate, the artifacts and the file counter
are all unchanged — and only the running byte total grows by the
record's serialized byte length (provided that growth does not itself
cross the byte ceiling, which would flush the previous batch). -/
theorem C2_excluded_amended (cfg : BatchConfig) (tok : String → Nat) (st : BatchState)
    (data : PageRecord)
    (h1 : isWithinTokenLimit tok (stringifyCompact data) (tokenEstimatorLimit cfg) = none)
    (h2 : byteOverflow cfg (st.currentSize + getStringByteSize (stringifyCompact data)) = false) :
    addContentOrSplit cfg tok st data =
      { st with currentSize := st.currentSize + getStringByteSize (stringifyCompact data) } := by
  unfold addContentOrSplit
  rw [tokenPhase_none cfg tok st data h1, bytePhase_noOv cfg _ st h2]

/-- Claim C2 witness: a concrete oversized record (10 serialized bytes
against a 1-token ceiling under the byte-counting estimator) is dropped,
leaving everything but the byte total unchanged. -/
theorem C2_excluded_amended_witness :
    addContentOrSplit cfgTok1 tokLen initialBatchState [("a", "bb")] =
      { initialBatchState with
        currentSize := initialBatchState.currentSize +
          getStringByteSize (stringifyCompact [("a", "bb")]) } :=
  C2_excluded_amended cfgTok1 tokLen initialBatchState [("a", "bb")] (by decide) (by decide)

/-! ### Claim C4: the token branch and its carry-over -/

/-- A reachable state with an empty pending batch but a non-zero running
token estimate (byte-ceiling flushes reset the batch but not the
estimate). -/
def emptyBatchCarry : BatchState :=
  { currentResults := [], currentSize := 0, fileCounter := 2,
    estimatedTokens := 4, artifacts := [] }

/-- Claim C4 counterexample: with an empty pending batch, a running
estimate of 4, ceiling 5 and a measured count of 3 (4 + 3 > 5), the
claim's "otherwise" branch prescribes `running_tokens := 4 + 3 = 7`;
the code instead takes the overflow branch without flushing and sets
`running_tokens := floor(3 / 2) = 1`. -/
theorem C4_token_branch_counterexample :
    isWithinTokenLimit tok3 (stringifyCompact [("t", "u")]) (tokenEstimatorLimit cfgTok5) = some 3 ∧
    emptyBatchCarry.currentResults.length = 0 ∧
    tokenOverflow cfgTok5 emptyBatchCarry.estimatedTokens 3 = true ∧
    (addContentOrSplit cfgTok5 tok3 emptyBatchCarry [("t", "u")]).estimatedTokens = 1 ∧
    (addContentOrSplit cfgTok5 tok3 emptyBatchCarry [("t", "u")]).estimatedTokens ≠
      emptyBatchCarry.estimatedTokens + 3 := by
  decide

/-- Claim C4 (amended): on a numeric token count `t`, if
`running_tokens + t > T` the batcher flushes the pending batch only when
it is non-empty, and in either case (non-empty or empty) starts the
batch containing the record with `running_tokens = floor(t / 2)`; only
when `running_tokens + t ≤ T` does it append the record and set
`running_tokens := running_tokens + t`. (Stated away from the byte
ceiling so the byte step does not flush.) -/
theorem C4_token_branch_amended (cfg : BatchConfig) (tok : String → Nat) (st : BatchState)
    (data : PageRecord) (t : Nat)
    (ht : isWithinTokenLimit tok (stringifyCompact data) (tokenEstimatorLimit cfg) = some t) :
    (tokenOverflow cfg st.estimatedTokens t = true → st.currentResults.length > 0 →
      byteOverflow cfg (0 + getStringByteSize (stringifyCompact data)) = false →
      addContentOrSplit cfg tok st data =
        { currentResults := [data],
          currentSize := 0 + getStringByteSize (stringifyCompact data),
          fileCounter := st.fileCounter + 1,
          estimatedTokens := t / 2,
          artifacts := st.artifacts ++ [flushArtifact cfg st] }) ∧
    (tokenOverflow cfg st.estimatedTokens t = true → st.currentResults.length = 0 →
      byteOverflow cfg (st.currentSize + getStringByteSize (stringifyCompact data)) = false →
      addContentOrSplit cfg tok st data =
        { st with currentResults := st.currentResults ++ [data],
                  estimatedTokens := t / 2,
                  currentSize := st.currentSize + getStringByteSize (stringifyCompact data) }) ∧
    (tokenOverflow cfg st.estimatedTokens t = false →
      byteOverflow cfg (st.currentSize + getStringByteSize (stringifyCompact data)) = false →
      addContentOrSplit cfg tok st data =
        { st with currentResults := st.currentResults ++ [data],
                  estimatedTokens := st.estimatedTokens + t,
                  currentSize := st.currentSize + getStringByteSize (stringifyCompact data) }) := by
  refine ⟨fun hov hne hb => ?_, fun hov hz hb => ?_, fun hov hb => ?_⟩
  · unfold addContentOrSplit
    rw [tokenPhase_ov_pos cfg tok st data t ht hov hne]
    rw [bytePhase_noOv _ _ _ hb]
  · unfold addContentOrSplit
    rw [tokenPhase_ov_zero cfg tok st data t ht hov hz]
    rw [bytePhase_noOv cfg (getStringByteSize (stringifyCompact data))
      { st with currentResults := st.currentResults ++ [data], estimatedTokens := t / 2 }
      (by simpa using hb)]
  · unfold addContentOrSplit
    rw [tokenPhase_noOv cfg tok st data t ht hov]
    rw [bytePhase_noOv cfg (getStringByteSize (stringifyCompact data))
      { st with currentResults := st.currentResults ++ [data],
                estimatedTokens := st.estimatedTokens + t }
      (by simpa using hb)]

/-- Claim C4 witness: a record measured at 9 tokens under a 100-token
ceiling is appended with `running_tokens := 0 + 9`. -/
theorem C4_token_branch_amended_witness :
    addContentOrSplit cfgTok100 tokLen initialBatchState [("a", "b")] =
      { initialBatchState with
        currentResults := initialBatchState.currentResults ++ [[("a", "b")]],
        estimatedTokens := initialBatchState.estimatedTokens + 9,
        currentSize := initialBatchState.currentSize +
          getStringByteSize (stringifyCompact [("a", "b")]) } :=
  (C4_token_branch_amended cfgTok100 tokLen initialBatchState [("a", "b")] 9
    (by decide)).2.2 (by decide) (by decide)

/-! ### Claim C1: lossless partition -/

theorem tokenPhase_trace (cfg : BatchConfig) (tok : String → Nat) (st : BatchState)
    (data : PageRecord)
    (h : (isWithinTokenLimit tok (stringifyCompact data) (tokenEstimatorLimit cfg)).isSome = true) :
    flushedRecords (tokenPhase cfg tok st data) ++ (tokenPhase cfg tok st data).currentResults
      = (flushedRecords st ++ st.currentResults) ++ [data] := by
  cases hE : isWithinTokenLimit tok (stringifyCompact data) (tokenEstimatorLimit cfg) with
  | none => rw [hE] at h; simp at h
  | some t =>
    cases hov : tokenOverflow cfg st.estimatedTokens t with
    | true =>
      by_cases hne : st.currentResults.length > 0
      · rw [tokenPhase_ov_pos cfg tok st data t hE hov hne]
        simp [flushedRecords, flushArtifact]
      · have hz : st.currentResults.length = 0 := Nat.eq_zero_of_not_pos hne
        have hnil : st.currentResults = [] := List.length_eq_zero.mp hz
        rw [tokenPhase_ov_zero cfg tok st data t hE hov hz]
        simp [hnil, flushedRecords]
    | false =>
      rw [tokenPhase_noOv cfg tok st data t hE hov]
      simp [flushedRecords]

theorem bytePhase_trace (cfg : BatchConfig) (b : Nat) (st : BatchState) :
    flushedRecords (bytePhase cfg b st) ++ (bytePhase cfg b st).currentResults
      = flushedRecords st ++ st.currentResults := by
  cases h : byteOverflow cfg (st.currentSize + b) with
  | true =>
    rw [bytePhase_ov cfg b st h]
    simp [flushedRecords_writeBatch, writeBatchToFile, flushedRecords, flushArtifact]
  | false =>
    rw [bytePhase_noOv cfg b st h]
    simp [flushedRecords]

theorem addContentOrSplit_trace (cfg : BatchConfig) (tok : String → Nat) (st : BatchState)
    (data : PageRecord)
    (h : (isWithinTokenLimit tok (stringifyCompact data) (tokenEstimatorLimit cfg)).isSome = true) :
    flushedRecords (addContentOrSplit cfg tok st data)
        ++ (addContentOrSplit cfg tok st data).currentResults
      = (flushedRecords st ++ st.currentResults) ++ [data] := by
  unfold addContentOrSplit
  rw [bytePhase_trace]
  exact tokenPhase_trace cfg tok st data h

theorem foldl_trace (cfg : BatchConfig) (tok : String → Nat) :
    ∀ (records : List PageRecord) (st : BatchState),
    (∀ r ∈ records,
      (isWithinTokenLimit tok (stringifyCompact r) (tokenEstimatorLimit cfg)).isSome = true) →
    flushedRecords (records.foldl (addContentOrSplit cfg tok) st)
        ++ (records.foldl (addContentOrSplit cfg tok) st).currentResults
      = (flushedRecords st ++ st.currentResults) ++ records
  | [], st, _ => by simp
  | r :: rs, st, h => by
    have h1 := h r (by simp)
    have h2 : ∀ x ∈ rs,
        (isWithinTokenLimit tok (stringifyCompact x) (tokenEstimatorLimit cfg)).isSome = true :=
      fun x hx => h x (by simp [hx])
    simp only [List.foldl_cons]
    rw [foldl_trace cfg tok rs (addContentOrSplit cfg tok st r) h2]
    rw [addContentOrSplit_trace cfg tok st r h1]
    simp

/-- Claim C1 counterexample: lossless partition fails — a single-record
group whose record the estimator reports as exceeding the token ceiling
alone produces NO artifact at all: the record is dropped, so the
concatenation of the flushed artifacts' records is empty, not the
original sequence. -/
theorem C1_lossless_counterexample :
    flushedRecords (processGroup cfgTok1 tokLen [[("html", "abcdef")]]) = [] ∧
    flushedRecords (processGroup cfgTok1 tokLen [[("html", "abcdef")]]) ≠ [[("html", "abcdef")]] := by
  decide

/-- Claim C1 (amended): for every group whose records the estimator can
all measure within the ceiling (a numeric count for each), the
concatenation of the flushed artifacts' records, in flush order, equals
the group's original record sequence exactly — no loss, no duplication,
no reordering. Records the estimator reports as exceeding the ceiling
alone are dropped and break the partition. -/
theorem C1_lossless_amended (cfg : BatchConfig) (tok : String → Nat)
    (records : List PageRecord)
    (h : ∀ r ∈ records,
      (isWithinTokenLimit tok (stringifyCompact r) (tokenEstimatorLimit cfg)).isSome = true) :
    flushedRecords (processGroup cfg tok records) = records := by
  have key := foldl_trace cfg tok records initialBatchState h
  have main : ∀ fin : BatchState, flushedRecords fin ++ fin.currentResults = records →
      flushedRecords (if fin.currentResults.length > 0 then writeBatchToFile cfg fin else fin)
        = records := by
    intro fin hf
    split
    · rw [flushedRecords_writeBatch]; exact hf
    · rename_i hlen
      have hnil : fin.currentResults = [] :=
        List.length_eq_zero.mp (Nat.le_zero.mp (Nat.not_lt.mp hlen))
      simpa [hnil] using hf
  exact main (records.foldl (addContentOrSplit cfg tok) initialBatchState)
    (by simpa [flushedRecords, initialBatchState] using key)

/-- Claim C1 witness: a two-record group under no token ceiling is
partitioned losslessly. -/
theorem C1_lossless_amended_witness :
    flushedRecords (processGroup cfgPlain tok0 [[("title", "x")], [("title", "y")]]) =
      [[("title", "x")], [("title", "y")]] :=
  C1_lossless_amended cfgPlain tok0 [[("title", "x")], [("title", "y")]] (by decide)

/-! ### Claim C3: byte-ceiling respect -/

theorem dropLast_append_singleton {α : Type} (l : List α) (x : α) :
    (l ++ [x]).dropLast = l := by
  simp

theorem batchBytes_singleton (x : PageRecord) : batchBytes [x] = recordBytes x := by
  simp [batchBytes]

/-- The byte-accounting invariant maintained between records of one
group under a configured byte ceiling `B`: the pending batch's member
total is dominated by `currentSize`, `currentSize` never rests above
`B`, and every artifact written so far is within `B` once its final
record is removed. -/
def SizeInv (B : Nat) (st : BatchState) : Prop :=
  batchBytes st.currentResults ≤ st.currentSize ∧
  st.currentSize ≤ B ∧
  ∀ a ∈ st.artifacts, batchBytes a.records.dropLast ≤ B

theorem addContentOrSplit_sizeInv (cfg : BatchConfig) (B : Nat) (tok : String → Nat)
    (st : BatchState) (data : PageRecord)
    (hB : maxBytes cfg = some B) (hInv : SizeInv B st) :
    SizeInv B (addContentOrSplit cfg tok st data) := by
  obtain ⟨h1, h2, h3⟩ := hInv
  have mid : batchBytes (tokenPhase cfg tok st data).currentResults
        ≤ (tokenPhase cfg tok st data).currentSize + recordBytes data ∧
      batchBytes (tokenPhase cfg tok st data).currentResults.dropLast
        ≤ (tokenPhase cfg tok st data).currentSize ∧
      (tokenPhase cfg tok st data).currentSize ≤ B ∧
      ∀ a ∈ (tokenPhase cfg tok st data).artifacts, batchBytes a.records.dropLast ≤ B := by
    cases hE : isWithinTokenLimit tok (stringifyCompact data) (tokenEstimatorLimit cfg) with
    | none =>
      rw [tokenPhase_none cfg tok st data hE]
      exact ⟨le_trans h1 (Nat.le_add_right _ _),
        le_trans (batchBytes_dropLast_le _) h1, h2, h3⟩
    | some t =>
      cases hov : tokenOverflow cfg st.estimatedTokens t with
      | false =>
        rw [tokenPhase_noOv cfg tok st data t hE hov]
        refine ⟨?_, ?_, h2, h3⟩
        · show batchBytes (st.currentResults ++ [data]) ≤ st.currentSize + recordBytes data
          rw [batchBytes_append]
          exact Nat.add_le_add_right h1 _
        · show batchBytes (st.currentResults ++ [data]).dropLast ≤ st.currentSize
          rw [dropLast_append_singleton]
          exact h1
      | true =>
        by_cases hne : st.currentResults.length > 0
        · rw [tokenPhase_ov_pos cfg tok st data t hE hov hne]
          refine ⟨?_, ?_, Nat.zero_le B, ?_⟩
          · show batchBytes [data] ≤ 0 + recordBytes data
            rw [batchBytes_singleton]
            omega
          · show batchBytes ([data] : List PageRecord).dropLast ≤ 0
            simp [batchBytes]
          · intro a ha
            rcases List.mem_append.mp ha with hmem | hmem
            · exact h3 a hmem
            · have : a = flushArtifact cfg st := List.mem_singleton.mp hmem
              subst this
              exact le_trans (le_trans (batchBytes_dropLast_le _) h1) h2
        · have hz : st.currentResults.length = 0 := Nat.eq_zero_of_not_pos hne
          rw [tokenPhase_ov_zero cfg tok st data t hE hov hz]
          refine ⟨?_, ?_, h2, h3⟩
          · show batchBytes (st.currentResults ++ [data]) ≤ st.currentSize + recordBytes data
            rw [batchBytes_append]
            exact Nat.add_le_add_right h1 _
          · show batchBytes (st.currentResults ++ [data]).dropLast ≤ st.currentSize
            rw [dropLast_append_singleton]
            exact h1
  obtain ⟨m1, m2, m3, m4⟩ := mid
  unfold addContentOrSplit
  rw [show getStringByteSize (stringifyCompact data) = recordBytes data from rfl]
  cases hb : byteOverflow cfg
      ((tokenPhase cfg tok st data).currentSize + recordBytes data) with
  | true =>
    rw [bytePhase_ov cfg (recordBytes data) (tokenPhase cfg tok st data) hb]
    refine ⟨by simp [writeBatchToFile, batchBytes], Nat.zero_le B, ?_⟩
    intro a ha
    simp only [writeBatchToFile, List.mem_append] at ha
    rcases ha with hmem | hmem
    · exact m4 a hmem
    · have : a = flushArtifact cfg
          { tokenPhase cfg tok st data with
            currentSize := (tokenPhase cfg tok st data).currentSize + recordBytes data } :=
        List.mem_singleton.mp hmem
      subst this
      exact le_trans m2 m3
  | false =>
    rw [bytePhase_noOv cfg (recordBytes data) (tokenPhase cfg tok st data) hb]
    refine ⟨m1, (byteOverflow_eq_false_iff cfg B _ hB).mp hb, m4⟩

theorem foldl_sizeInv (cfg : BatchConfig) (B : Nat) (tok : String → Nat) :
    ∀ (records : List PageRecord) (st : BatchState),
    maxBytes cfg = some B → SizeInv B st →
    SizeInv B (records.foldl (addContentOrSplit cfg tok) st)
  | [], _, _, h => h
  | r :: rs, st, hB, h => by
    simp only [List.foldl_cons]
    exact foldl_sizeInv cfg B tok rs (addContentOrSplit cfg tok st r) hB
      (addContentOrSplit_sizeInv cfg B tok st r hB h)

def cfgMB : BatchConfig :=
  { outputFileName := "output.json", maxFileSize := some 1, maxTokens := none }

/-- Claim C3 (amended): under a configured byte ceiling `B`, every
flushed artifact's total serialized byte size minus its final record's
size is ≤ B; equivalently an artifact can exceed `B` only through its
final record (the one whose arrival triggered the byte-ceiling flush),
and an artifact not flushed by the byte trigger is within `B`. The
exception is NOT limited to singleton artifacts of one oversized
record: a multi-record artifact may exceed `B` even when no member does. -/
theorem C3_byte_ceiling_amended (cfg : BatchConfig) (tok : String → Nat)
    (records : List PageRecord) (B : Nat) (a : Artifact)
    (hB : maxBytes cfg = some B)
    (ha : a ∈ (processGroup cfg tok records).artifacts) :
    batchBytes a.records.dropLast ≤ B := by
  have inv : SizeInv B (records.foldl (addContentOrSplit cfg tok) initialBatchState) :=
    foldl_sizeInv cfg B tok records initialBatchState hB
      ⟨by simp [initialBatchState, batchBytes], Nat.zero_le B, by simp [initialBatchState]⟩
  have main : ∀ fin : BatchState, SizeInv B fin →
      a ∈ (if fin.currentResults.length > 0 then writeBatchToFile cfg fin else fin).artifacts →
      batchBytes a.records.dropLast ≤ B := by
    intro fin ⟨f1, f2, f3⟩ hmem
    by_cases hlen : fin.currentResults.length > 0
    · rw [if_pos hlen] at hmem
      simp only [writeBatchToFile, List.mem_append] at hmem
      rcases hmem with hmem | hmem
      · exact f3 a hmem
      · have : a = flushArtifact cfg fin := List.mem_singleton.mp hmem
        subst this
        exact le_trans (le_trans (batchBytes_dropLast_le _) f1) f2
    · rw [if_neg hlen] at hmem
      exact f3 a hmem
  exact main (records.foldl (addContentOrSplit cfg tok) initialBatchState) inv ha

/-- Claim C3 witness: the single artifact of a one-record group under a
1MB ceiling satisfies the dropLast bound. -/
theorem C3_byte_ceiling_amended_witness :
    batchBytes ((processGroup cfgMB tok0 [[("t", "x")]]).artifacts.headI).records.dropLast
      ≤ 1048576 :=
  C3_byte_ceiling_amended cfgMB tok0 [[("t", "x")]] 1048576
    ((processGroup cfgMB tok0 [[("t", "x")]]).artifacts.headI) (by decide) (by decide)

/-! ### Large-record fixtures: symbolic byte-size computations

The byte ceiling is at least 1 MiB (`maxFileSize` is in MB), so inputs
that exercise it are built symbolically from `aStr n` (a string of `n`
copies of 'a') and their sizes are computed by the lemmas below instead
of by kernel evaluation. -/

def aStr (n : Nat) : String := String.mk (List.replicate n 'a')

theorem charBytes_replicate_a (n : Nat) : charBytes (List.replicate n 'a') = n := by
  induction n with
  | zero => rfl
  | succ k ih =>
    have ha : ('a').utf8Size = 1 := by decide
    simp [List.replicate_succ, charBytes, ih, ha]
    omega

theorem utf8Len_aStr (n : Nat) : utf8Len (aStr n) = n := charBytes_replicate_a n

theorem escList_replicate_a (n : Nat) :
    escList (List.replicate n 'a') = List.replicate n 'a' := by
  induction n with
  | zero => rfl
  | succ k ih =>
    have ha : escapeChar 'a' = ['a'] := by decide
    simp [List.replicate_succ, escList, ih, ha]

theorem escapeString_aStr (n : Nat) : escapeString (aStr n) = aStr n := by
  show String.mk (escList (List.replicate n 'a')) = aStr n
  rw [escList_replicate_a]
  rfl

theorem quoteStr_aStr (n : Nat) : quoteStr (aStr n) = "\"" ++ aStr n ++ "\"" := by
  unfold quoteStr
  rw [escapeString_aStr]

theorem utf8Len_quoteStr_aStr (n : Nat) : utf8Len (quoteStr (aStr n)) = n + 2 := by
  have hq : utf8Len "\"" = 1 := by decide
  rw [quoteStr_aStr]
  simp [utf8Len_append, hq, utf8Len_aStr]
  omega

theorem recordBytes_aField (n : Nat) : recordBytes [("a", aStr n)] = n + 8 := by
  have hs : stringifyCompact [("a", aStr n)]
      = "\x7b" ++ (quoteStr "a" ++ ":" ++ quoteStr (aStr n)) ++ "\x7d" := rfl
  have h1 : utf8Len "\x7b" = 1 := by decide
  have h2 : utf8Len "\x7d" = 1 := by decide
  have h3 : utf8Len (quoteStr "a") = 3 := by decide
  have h4 : utf8Len ":" = 1 := by decide
  rw [show recordBytes [("a", aStr n)]
      = utf8Len (stringifyCompact [("a", aStr n)]) from rfl, hs]
  simp [utf8Len_append, h1, h2, h3, h4, utf8Len_quoteStr_aStr]
  omega

theorem utf8Len_prettyBatch_aField (n : Nat) :
    utf8Len (prettyBatch [[("a", aStr n)]]) = n + 23 := by
  have hp : prettyBatch [[("a", aStr n)]]
      = "[\n" ++ ("  " ++ ("\x7b\n"
          ++ ("    " ++ quoteStr "a" ++ ": " ++ quoteStr (aStr n))
          ++ "\n  \x7d")) ++ "\n]" := rfl
  have h1 : utf8Len "[\n" = 2 := by decide
  have h2 : utf8Len "\n]" = 2 := by decide
  have h3 : utf8Len "  " = 2 := by decide
  have h4 : utf8Len "\x7b\n" = 2 := by decide
  have h5 : utf8Len "\n  \x7d" = 4 := by decide
  have h6 : utf8Len "    " = 4 := by decide
  have h7 : utf8Len ": " = 2 := by decide
  have h8 : utf8Len (quoteStr "a") = 3 := by decide
  rw [hp]
  simp [utf8Len_append, h1, h2, h3, h4, h5, h6, h7, h8, utf8Len_quoteStr_aStr]
  omega

/-- A no-token-ceiling step always takes the append branch. -/
theorem tokenPhase_noTokens (cfg : BatchConfig) (tok : String → Nat) (st : BatchState)
    (data : PageRecord) (h : cfg.maxTokens = none) :
    tokenPhase cfg tok st data =
      { st with currentResults := st.currentResults ++ [data],
                estimatedTokens := st.estimatedTokens + tok (stringifyCompact data) } := by
  apply tokenPhase_noOv
  · unfold isWithinTokenLimit tokenEstimatorLimit
    rw [h]
  · unfold tokenOverflow
    rw [h]

theorem add_simple_eq (cfg : BatchConfig) (tok : String → Nat) (st : BatchState)
    (data : PageRecord) (sz : Nat)
    (hTok : cfg.maxTokens = none)
    (hsz : getStringByteSize (stringifyCompact data) = sz)
    (hByte : byteOverflow cfg (st.currentSize + sz) = false) :
    addContentOrSplit cfg tok st data =
      { st with currentResults := st.currentResults ++ [data],
                estimatedTokens := st.estimatedTokens + tok (stringifyCompact data),
                currentSize := st.currentSize + sz } := by
  unfold addContentOrSplit
  rw [tokenPhase_noTokens cfg tok st data hTok, hsz]
  rw [bytePhase_noOv cfg sz
    { st with currentResults := st.currentResults ++ [data],
              estimatedTokens := st.estimatedTokens + tok (stringifyCompact data) }
    (by simpa using hByte)]

theorem add_flush_eq (cfg : BatchConfig) (tok : String → Nat) (st : BatchState)
    (data : PageRecord) (sz : Nat)
    (hTok : cfg.maxTokens = none)
    (hsz : getStringByteSize (stringifyCompact data) = sz)
    (hByte : byteOverflow cfg (st.currentSize + sz) = true) :
    addContentOrSplit cfg tok st data =
      writeBatchToFile cfg
        { st with currentResults := st.currentResults ++ [data],
                  estimatedTokens := st.estimatedTokens + tok (stringifyCompact data),
                  currentSize := st.currentSize + sz } := by
  unfold addContentOrSplit
  rw [tokenPhase_noTokens cfg tok st data hTok, hsz]
  rw [bytePhase_ov cfg sz
    { st with currentResults := st.currentResults ++ [data],
              estimatedTokens := st.estimatedTokens + tok (stringifyCompact data) }
    (by simpa using hByte)]

theorem processGroup_eq (cfg : BatchConfig) (tok : String → Nat)
    (records : List PageRecord) :
    processGroup cfg tok records =
      (fun fin => if fin.currentResults.length > 0 then writeBatchToFile cfg fin else fin)
        (records.foldl (addContentOrSplit cfg tok) initialBatchState) := rfl

/-- The ~600 KB record used by the C3 counterexample. -/
def recBig : PageRecord := [("a", aStr 600000)]

/-- The pre-flush state reached after both big records are appended. -/
def stBig : BatchState :=
  { currentResults := [recBig, recBig], currentSize := 1200016, fileCounter := 1,
    estimatedTokens := 0, artifacts := [] }

theorem recordBytes_recBig : recordBytes recBig = 600008 := by
  rw [show recBig = [("a", aStr 600000)] from rfl, recordBytes_aField]

set_option maxRecDepth 4000 in
/-- Claim C3 counterexample: with a 1 MiB ceiling, two 600008-byte
records land in ONE flushed artifact of 1200016 > 1048576 serialized
bytes even though neither record alone exceeds the ceiling — the
over-ceiling artifact is not a singleton of one oversized record. -/
theorem C3_byte_ceiling_counterexample :
    ((processGroup cfgMB tok0 [recBig, recBig]).artifacts.map Artifact.records)
      = [[recBig, recBig]] ∧
    maxBytes cfgMB = some 1048576 ∧
    batchBytes [recBig, recBig] = 1200016 ∧
    1200016 > 1048576 ∧
    recordBytes recBig = 600008 ∧
    600008 ≤ 1048576 := by
  have hsz : getStringByteSize (stringifyCompact recBig) = 600008 := recordBytes_recBig
  have s1 : addContentOrSplit cfgMB tok0 initialBatchState recBig =
      { currentResults := [recBig], currentSize := 600008, fileCounter := 1,
        estimatedTokens := 0, artifacts := [] } := by
    rw [add_simple_eq cfgMB tok0 initialBatchState recBig 600008 rfl hsz (by decide)]
    simp [initialBatchState, tok0]
  have s2 : addContentOrSplit cfgMB tok0
      { currentResults := [recBig], currentSize := 600008, fileCounter := 1,
        estimatedTokens := 0, artifacts := [] } recBig =
      writeBatchToFile cfgMB stBig := by
    rw [add_flush_eq cfgMB tok0 _ recBig 600008 rfl hsz (by decide)]
    simp [tok0, stBig]
  have hfold : [recBig, recBig].foldl (addContentOrSplit cfgMB tok0) initialBatchState
      = writeBatchToFile cfgMB stBig := by
    rw [List.foldl_cons, s1, List.foldl_cons, s2, List.foldl_nil]
  have hgroup : processGroup cfgMB tok0 [recBig, recBig] = writeBatchToFile cfgMB stBig := by
    rw [processGroup_eq, hfold]
    show (if (writeBatchToFile cfgMB stBig).currentResults.length > 0
        then writeBatchToFile cfgMB (writeBatchToFile cfgMB stBig)
        else writeBatchToFile cfgMB stBig) = writeBatchToFile cfgMB stBig
    rw [if_neg]
    intro h
    simp [writeBatchToFile] at h
  refine ⟨?_, by decide, ?_, by norm_num, recordBytes_recBig, by norm_num⟩
  · rw [hgroup]
    simp [writeBatchToFile, flushArtifact, stBig]
  · simp [batchBytes, recordBytes_recBig]

/-! ### Claims C7, C8: aggregation error containment and returned output -/

theorem fileGroupKey_const (cfg : BatchConfig) (f : RecordFile) :
    fileGroupKey cfg f = configKey cfg := by
  unfold fileGroupKey
  split
  · split <;> rfl
  · rfl

theorem groupFiles_go (cfg : BatchConfig) :
    ∀ (files : List RecordFile) (fs0 : List RecordFile),
    files.foldl (fun acc f => insertAppend (fileGroupKey cfg f) f acc) [(configKey cfg, fs0)]
      = [(configKey cfg, fs0 ++ files)]
  | [], fs0 => by simp
  | f :: fs, fs0 => by
    simp only [List.foldl_cons]
    rw [fileGroupKey_const]
    rw [show insertAppend (configKey cfg) f [(configKey cfg, fs0)]
        = [(configKey cfg, fs0 ++ [f])] from by simp [insertAppend]]
    rw [groupFiles_go cfg fs (fs0 ++ [f])]
    simp

theorem groupFiles_eq (cfg : BatchConfig) :
    ∀ (files : List RecordFile), files ≠ [] →
    groupFiles cfg files = [(configKey cfg, files)]
  | [], h => absurd rfl h
  | f :: fs, _ => by
    unfold groupFiles
    simp only [List.foldl_cons]
    rw [fileGroupKey_const]
    rw [show insertAppend (configKey cfg) f ([] : List (String × List RecordFile))
        = [(configKey cfg, [f])] from rfl]
    rw [groupFiles_go cfg fs [f]]
    simp

theorem processFilesE_ok (cfg : BatchConfig) (tok : String → Nat) :
    ∀ (fs : List RecordFile) (st : BatchState),
    (∀ f ∈ fs, f.parses = true) →
    ∃ st2, processFilesE cfg tok st fs = Except.ok st2
  | [], st, _ => ⟨st, rfl⟩
  | f :: fs, st, h => by
    have hf : f.parses = true := h f (by simp)
    obtain ⟨st2, h2⟩ := processFilesE_ok cfg tok fs (addContentOrSplit cfg tok st f.data)
      (fun x hx => h x (by simp [hx]))
    exact ⟨st2, by unfold processFilesE; simp [hf, h2]⟩

theorem processFilesE_err (cfg : BatchConfig) (tok : String → Nat) :
    ∀ (fs : List RecordFile) (st : BatchState) (f0 : RecordFile),
    f0 ∈ fs → f0.parses = false →
    ∃ e, processFilesE cfg tok st fs = Except.error e
  | [], _, f0, hmem, _ => absurd hmem (List.not_mem_nil f0)
  | f :: fs, st, f0, hmem, hbad => by
    cases hp : f.parses with
    | false => exact ⟨f.path, by unfold processFilesE; simp [hp]⟩
    | true =>
      have hemem : f0 ∈ fs := by
        rcases List.mem_cons.mp hmem with rfl | hm
        · rw [hp] at hbad; exact absurd hbad (by simp)
        · exact hm
      obtain ⟨e, he⟩ :=
        processFilesE_err cfg tok fs (addContentOrSplit cfg tok st f.data) f0 hemem hbad
      exact ⟨e, by unfold processFilesE; simp [hp, he]⟩

instance {E A : Type} [DecidableEq E] [DecidableEq A] : DecidableEq (Except E A) :=
  fun x y =>
    match x, y with
    | Except.ok a, Except.ok b =>
      if h : a = b then isTrue (by rw [h])
      else isFalse (by intro hh; injection hh; exact h (by assumption))
    | Except.error e, Except.error e2 =>
      if h : e = e2 then isTrue (by rw [h])
      else isFalse (by intro hh; injection hh; exact h (by assumption))
    | Except.ok _, Except.error _ => isFalse (by intro hh; cases hh)
    | Except.error _, Except.ok _ => isFalse (by intro hh; cases hh)

/-- `true` exactly on a successful result. -/
def isOkB {A : Type} (e : Except String A) : Bool :=
  match e with
  | Except.ok _ => true
  | Except.error _ => false

/-- `true` exactly on a thrown error. -/
def isErrB {A : Type} (e : Except String A) : Bool :=
  match e with
  | Except.ok _ => false
  | Except.error _ => true

def badFile : RecordFile :=
  { path := "storage/datasets/default/bad.json", parses := false, data := [] }

def goodFile : RecordFile :=
  { path := "storage/datasets/default/good.json", parses := true, data := [("title", "g")] }

/-- Claim C7 counterexample: an unparseable file is indeed routed into
the configuration's fallback group, but aggregation does NOT run to
completion: when the group is processed the file is re-read and
re-parsed with no error handling, so `writeSingle` aborts with that
file's error, and the good record after it is never aggregated. -/
theorem C7_read_error_counterexample :
    fileGroupKey cfgPlain badFile = configKey cfgPlain ∧
    writeSingle cfgPlain tok0 [badFile, goodFile] =
      Except.error "storage/datasets/default/bad.json" := by
  decide

/-- Claim C7 (amended): an unreadable/unparseable record file is routed
into the configuration's fallback group (the config-key group, like
every other file), and aggregation completes whenever every grouped
file parses on re-read; but a file that fails to parse makes
`writeSingle` abort with an error instead of completing, because the
per-group loop re-reads and re-parses each file without error
handling. -/
theorem C7_read_error_amended (cfg : BatchConfig) (tok : String → Nat)
    (files : List RecordFile) (f : RecordFile) (hf : f ∈ files) :
    fileGroupKey cfg f = configKey cfg ∧
    ((∀ g ∈ files, g.parses = true) → isOkB (writeSingle cfg tok files) = true) ∧
    (f.parses = false → isErrB (writeSingle cfg tok files) = true) := by
  have hne : files ≠ [] := by
    intro h
    subst h
    exact (List.not_mem_nil f) hf
  refine ⟨fileGroupKey_const cfg f, fun hall => ?_, fun hbad => ?_⟩
  · obtain ⟨st2, hst⟩ := processFilesE_ok
      { cfg with outputFileName := configKey cfg ++ ".json" } tok files initialBatchState hall
    unfold writeSingle
    rw [groupFiles_eq cfg files hne]
    unfold writeGroups processGroupE
    rw [hst]
    simp [writeGroups, isOkB]
  · obtain ⟨e, he⟩ := processFilesE_err
      { cfg with outputFileName := configKey cfg ++ ".json" } tok files initialBatchState f hf hbad
    unfold writeSingle
    rw [groupFiles_eq cfg files hne]
    unfold writeGroups processGroupE
    rw [he]
    simp [isErrB]

def f7w : RecordFile :=
  { path := "storage/datasets/default/1.json", parses := true, data := [("title", "w")] }

/-- Claim C7 witness: a one-file store whose file parses aggregates to
completion, and the file sits in the config-key group. -/
theorem C7_read_error_amended_witness :
    isOkB (writeSingle cfgPlain tok0 [f7w]) = true ∧
    fileGroupKey cfgPlain f7w = configKey cfgPlain :=
  ⟨(C7_read_error_amended cfgPlain tok0 [f7w] f7w (by decide)).2.1 (by decide),
   (C7_read_error_amended cfgPlain tok0 [f7w] f7w (by decide)).1⟩

theorem writeSingle_snd (cfg : BatchConfig) (tok : String → Nat)
    (files : List RecordFile) (v : List Artifact × String)
    (hv : writeSingle cfg tok files = Except.ok v) : v.2 = cfg.outputFileName := by
  unfold writeSingle at hv
  cases hw : writeGroups cfg tok (groupFiles cfg files) with
  | error e => rw [hw] at hv; exact absurd hv (by simp)
  | ok arts =>
    rw [hw] at hv
    injection hv with h
    rw [← h]

def f8 : RecordFile :=
  { path := "storage/datasets/default/1.json", parses := true, data := [("title", "x")] }

/-- Claim C8 counterexample: `writeSingle` does not return the
concatenation of the artifact paths it produced — it produced exactly
the artifact "output-1.json" but returns the configured name
"output.json", which is not the path of any produced artifact. -/
theorem C8_returned_output_counterexample :
    writeSingle cfgPlain tok0 [f8] =
      Except.ok ([{ name := "output-1.json",
                    content := prettyBatch [[("title", "x")]],
                    records := [[("title", "x")]] }], "output.json") ∧
    ("output.json" : String) ≠ "output-1.json" := by
  decide

/-- Claim C8 (amended): the aggregation/write phase returns the
configuration's own `outputFileName`, not the list of artifact paths it
produced; for a multi-configuration run it returns the list of the
configurations' outputFileNames, in configuration order. -/
theorem C8_returned_output_amended (cfg : BatchConfig) (tok : String → Nat)
    (files : List RecordFile) (v : List Artifact × String)
    (hv : writeSingle cfg tok files = Except.ok v)
    (cfgs : List BatchConfig) (res : List String)
    (hres : write cfgs tok files = Except.ok res) :
    v.2 = cfg.outputFileName ∧ res = cfgs.map (fun c => c.outputFileName) := by
  refine ⟨writeSingle_snd cfg tok files v hv, ?_⟩
  clear hv
  induction cfgs generalizing res with
  | nil =>
    unfold write at hres
    injection hres with h
    rw [← h]
    rfl
  | cons c cs ih =>
    unfold write at hres
    cases hw1 : writeSingle c tok files with
    | error e => rw [hw1] at hres; exact absurd hres (by simp)
    | ok r =>
      rw [hw1] at hres
      cases hw2 : write cs tok files with
      | error e => rw [hw2] at hres; exact absurd hres (by simp)
      | ok more =>
        rw [hw2] at hres
        injection hres with h
        rw [← h, writeSingle_snd c tok files r hw1, ih more hw2]
        rfl

def cfgW8 : BatchConfig := { outputFileName := "w8.json", maxFileSize := none, maxTokens := none }

/-- Claim C8 witness: on an empty store, `writeSingle` returns the
configured name and the multi-config `write` returns one name per
configuration. -/
theorem C8_returned_output_amended_witness :
    (([], "w8.json") : List Artifact × String).2 = cfgW8.outputFileName ∧
    (["w8.json"] : List String) = [cfgW8].map (fun c => c.outputFileName) :=
  C8_returned_output_amended cfgW8 tok0 [] ([], "w8.json") (by decide)
    [cfgW8] ["w8.json"] (by decide)

/-! ### Claim C10: two different serializations in byte accounting -/

/-- The widest record that still fits the 1 MiB ceiling compactly. -/
def recWide : PageRecord := [("a", aStr 1048568)]

theorem recordBytes_recWide : recordBytes recWide = 1048576 := by
  rw [show recWide = [("a", aStr 1048568)] from rfl, recordBytes_aField]

/-- The state just before the end-of-group flush of the single wide
record. -/
def stWide : BatchState :=
  { currentResults := [recWide], currentSize := 1048576, fileCounter := 1,
    estimatedTokens := 0, artifacts := [] }

set_option maxRecDepth 4000 in
theorem processGroup_recWide :
    processGroup cfgMB tok0 [recWide] = writeBatchToFile cfgMB stWide := by
  have s1 : addContentOrSplit cfgMB tok0 initialBatchState recWide = stWide := by
    rw [add_simple_eq cfgMB tok0 initialBatchState recWide 1048576 rfl
      recordBytes_recWide (by decide)]
    simp [initialBatchState, tok0, stWide]
  rw [processGroup_eq]
  rw [show [recWide].foldl (addContentOrSplit cfgMB tok0) initialBatchState = stWide from by
    rw [List.foldl_cons, s1, List.foldl_nil]]
  show (if stWide.currentResults.length > 0
      then writeBatchToFile cfgMB stWide else stWide) = writeBatchToFile cfgMB stWide
  rw [if_pos]
  show stWide.currentResults.length > 0
  simp [stWide]

/-- Claim C10: the byte amount added per record is the UTF-8 byte length
of the record's COMPACT JSON serialization (the argument `bytePhase`
receives is `getStringByteSize (stringifyCompact data)`, and absent a
flush `currentSize` grows by exactly that amount), while every flushed
artifact's file content is the PRETTY-printed 2-space serialization of
the whole batch; consequently the ceiling constrains the compact member
total, not the written file's size: a group whose compact total is
exactly the 1 MiB ceiling (so no byte flush fires) produces an artifact
file of 1048591 > 1048576 bytes. -/
theorem C10_two_serializations (cfg : BatchConfig) (tok : String → Nat) (st : BatchState)
    (data : PageRecord) (b : Nat) :
    (addContentOrSplit cfg tok st data
        = bytePhase cfg (getStringByteSize (stringifyCompact data)) (tokenPhase cfg tok st data)) ∧
    ((bytePhase cfg b st).artifacts = st.artifacts →
        (bytePhase cfg b st).currentSize = st.currentSize + b) ∧
    ((writeBatchToFile cfg st).artifacts
        = st.artifacts ++ [{ name := nextFileName cfg st.fileCounter,
                             content := prettyBatch st.currentResults,
                             records := st.currentResults }]) ∧
    ((processGroup cfgMB tok0 [recWide]).artifacts
        = [{ name := "output-1.json", content := prettyBatch [recWide],
             records := [recWide] }] ∧
      maxBytes cfgMB = some 1048576 ∧
      batchBytes [recWide] = 1048576 ∧
      getStringByteSize (prettyBatch [recWide]) = 1048591 ∧
      1048576 ≤ 1048576 ∧ 1048591 > 1048576) := by
  refine ⟨rfl, fun hart => ?_, rfl, ?_, by decide, ?_, ?_, by norm_num, by norm_num⟩
  · cases hb : byteOverflow cfg (st.currentSize + b) with
    | true =>
      rw [bytePhase_ov cfg b st hb] at hart
      exfalso
      apply ne_append_singleton st.artifacts
        (flushArtifact cfg { st with currentSize := st.currentSize + b })
      simp only [writeBatchToFile] at hart
      exact hart
    | false =>
      rw [bytePhase_noOv cfg b st hb]
  · rw [processGroup_recWide]
    rw [show (writeBatchToFile cfgMB stWide).artifacts
        = [flushArtifact cfgMB stWide] from by simp [writeBatchToFile, stWide]]
    rw [show flushArtifact cfgMB stWide
        = { name := nextFileName cfgMB 1, content := prettyBatch [recWide],
            records := [recWide] } from rfl]
    rw [show nextFileName cfgMB 1 = "output-1.json" from by decide]
  · simp [batchBytes, recordBytes_recWide]
  · show utf8Len (prettyBatch [recWide]) = 1048591
    rw [show (recWide : PageRecord) = [("a", aStr 1048568)] from rfl]
    exact (utf8Len_prettyBatch_aField 1048568).trans (by norm_num)

def cfgW10 : BatchConfig := { outputFileName := "w10.json", maxFileSize := none, maxTokens := none }

/-- Claim C10 witness: a flush-free byte step grows `currentSize` by
exactly the serialized byte amount. -/
theorem C10_two_serializations_witness :
    (bytePhase cfgW10 4 initialBatchState).currentSize = initialBatchState.currentSize + 4 :=
  (C10_two_serializations cfgW10 tok0 initialBatchState [] 4).2.1 (by decide)

end Crawler
